import Mathlib

/-!
Verification of the news-summary pipeline (classification gate, extraction
record assembly, batch driver, and optimizer configuration) against its
natural-language specification.  The Python sources are shallowly embedded:
the LLM-backed classifier and extractor become oracle function parameters,
strings become Lean `String`, Python `str.strip` and substring containment
are modelled explicitly, and fallible loading returns `Except`.
-/

namespace NewsSummary

/-- Whitespace characters removed by Python `str.strip()` (the ASCII
whitespace set plus the ideographic space, which matters for Chinese text). -/
def pyIsSpace (c : Char) : Bool :=
  c = ' ' || c = '\t' || c = '\n' || c = '\r' || c = '\x0b' || c = '\x0c' || c = '　'

/-- Strip `pyIsSpace` characters from both ends of a character list,
modelling Python `str.strip()` on the underlying character sequence. -/
def stripChars (cs : List Char) : List Char :=
  ((cs.dropWhile pyIsSpace).reverse.dropWhile pyIsSpace).reverse

/-- Python `str.strip()` on Lean strings. -/
def pyStrip (s : String) : String :=
  ⟨stripChars s.data⟩

/-- Executable substring containment on character lists: Python's
`needle in hay` for strings, checked position by position. -/
def containsSub (needle : List Char) : List Char → Bool
  | [] => needle.isEmpty
  | c :: rest => needle.isPrefixOf (c :: rest) || containsSub needle rest

/-- Python `needle in hay` on Lean strings. -/
def strContains (hay needle : String) : Bool :=
  containsSub needle.data hay.data

/-- The propositional reading of substring containment: `needle` occurs
contiguously inside `hay`. -/
def IsSubstr (needle hay : String) : Prop :=
  ∃ pre post : List Char, hay.data = pre ++ needle.data ++ post

/-- Constant `TARGET_CATEGORIES` from `model.py`: the three substantive categories. -/
def TARGET_CATEGORIES : List String := ["研究前沿", "产业应用", "政策计划"]

/-- The rejected category label. -/
def OTHER : String := "其他"

/-- Function `NewsPipeline._normalize_category` from `model.py`: an empty or missing
raw label becomes `其他`; otherwise the label is stripped and the first
target category whose name occurs as a substring wins; no match gives
`其他`. -/
def normalize_category (category : Option String) : String :=
  match category with
  | none => OTHER
  | some c =>
    if c = "" then OTHER
    else
      let c := pyStrip c
      match TARGET_CATEGORIES.find? (fun target => strContains c target) with
      | some target => target
      | none => OTHER

/-- Dataclass `NewsMetadata` from `model.py`: metadata attached after reading a row. -/
structure NewsMetadata where
  raw_content : String
  release_time : Option String := none
  source_institution : Option String := none
  url : Option String := none
  deriving Repr, DecidableEq

/-- The metadata argument of `NewsPipeline.forward`: `None`, a `NewsMetadata`
dataclass, or a plain mapping whose keys may be absent (Python
`Optional[Mapping[str, Any] | NewsMetadata]`). -/
inductive MetaInput where
  | noneM : MetaInput
  | meta : NewsMetadata → MetaInput
  | mapping : (raw_content release_time source_institution url : Option String) → MetaInput
  deriving Repr, DecidableEq

/-- The three output fields produced by the `IntelligenceExtractor` call. -/
structure Extraction where
  title : String
  short_summary : String
  detailed_summary : String
  deriving Repr, DecidableEq

/-- The structured record `NewsPipeline.forward` returns for an accepted
article: extraction fields merged with the metadata fields. -/
structure Record where
  category : String
  title : String
  short_summary : String
  detailed_summary : String
  raw_content : String
  release_time : Option String
  source_institution : Option String
  url : Option String
  deriving Repr, DecidableEq

/-- The four metadata fields `_extract_metadata` merges into the result. -/
structure MetaFields where
  raw_content : String
  release_time : Option String
  source_institution : Option String
  url : Option String
  deriving Repr, DecidableEq

/-- Function `NewsPipeline._extract_metadata` from `model.py`: with no metadata the
original content becomes `raw_content` and the other fields are null; a
`NewsMetadata` or mapping carries its fields through, `raw_content`
falling back to the content when the mapping lacks it. -/
def extract_metadata (metadata : MetaInput) (fallback_content : String) : MetaFields :=
  match metadata with
  | .noneM => ⟨fallback_content, none, none, none⟩
  | .meta m => ⟨m.raw_content, m.release_time, m.source_institution, m.url⟩
  | .mapping rc rt si u => ⟨rc.getD fallback_content, rt, si, u⟩

/-- The record assembly step of `NewsPipeline.forward`: the accepted
category, the whitespace-stripped extraction fields, and the metadata
fields merged in by `result.update`. -/
def assemble_record (normalized_category : String)
    (extraction : Extraction) (md : MetaFields) : Record :=
  { category := normalized_category
    title := pyStrip extraction.title
    short_summary := pyStrip extraction.short_summary
    detailed_summary := pyStrip extraction.detailed_summary
    raw_content := md.raw_content
    release_time := md.release_time
    source_institution := md.source_institution
    url := md.url }

/-- Function `NewsPipeline.forward` from `model.py`, with the two LLM-backed stages
passed as oracles (`classify` for the classifier's raw label, `extract` for
the extractor's fields).  Returns the optional record together with the
number of extractor invocations performed. -/
def forward (classify : String → Option String)
    (extract : String → String → Extraction)
    (content : String) (metadata : MetaInput) : Option Record × Nat :=
  let classification := classify content
  let normalized_category := normalize_category classification
  if normalized_category ∈ TARGET_CATEGORIES then
    let extraction := extract content normalized_category
    let md := extract_metadata metadata content
    (some (assemble_record normalized_category extraction md), 1)
  else
    (none, 0)

/-- One row handed to `process_records` in `main.py`: a dict whose four
logical fields may each be absent. -/
structure InputRecord where
  raw_content : Option String := none
  release_time : Option String := none
  source_institution : Option String := none
  url : Option String := none
  deriving Repr, DecidableEq

/-- The summary-merging step of `process_records` in `main.py`: when both
`short_summary` and `detailed_summary` are truthy (non-empty), the record's
`detailed_summary` is replaced by `short_summary + "\n" + detailed_summary`;
otherwise the record is unchanged. -/
def compose_summary (prediction : Record) : Record :=
  if prediction.short_summary ≠ "" ∧ prediction.detailed_summary ≠ "" then
    { prediction with
      detailed_summary :=
        prediction.short_summary ++ "\n" ++ prediction.detailed_summary }
  else
    prediction

/-- The `NewsMetadata(...)` construction at the top of the loop in
`process_records`: `record.get("raw_content", "")` plus the three optional
fields via `record.get(...)`. -/
def mkMetadata (record : InputRecord) : NewsMetadata :=
  { raw_content := record.raw_content.getD ""
    release_time := record.release_time
    source_institution := record.source_institution
    url := record.url }

/-- Function `process_records` from `main.py`, with the pipeline passed as an oracle.
Rows whose `raw_content` strips to empty are skipped before the pipeline is
consulted; rejected rows yield no output; accepted rows are written after
summary merging.  Returns the written records in order together with the
number of pipeline invocations. -/
def process_records (pipeline : String → NewsMetadata → Option Record) :
    List InputRecord → List Record × Nat
  | [] => ([], 0)
  | record :: rest =>
    if pyStrip (mkMetadata record).raw_content = "" then
      process_records pipeline rest
    else
      match pipeline (mkMetadata record).raw_content (mkMetadata record) with
      | none =>
        ((process_records pipeline rest).1, (process_records pipeline rest).2 + 1)
      | some prediction =>
        (compose_summary prediction :: (process_records pipeline rest).1,
          (process_records pipeline rest).2 + 1)

/-- One labeled training example as read from `example.json` by
`load_training_examples` in `optimize.py`. -/
structure RawExample where
  content : String
  category : String
  title : String
  short_summary : String
  detailed_summary : String
  deriving Repr, DecidableEq

/-- The state of the backing example source as `load_training_examples`
observes it: the file may be missing, may fail to parse as JSON, or may
parse to a single object (which the code wraps into a one-element list)
or to an array of objects. -/
inductive ExampleSource where
  | missing : ExampleSource
  | unparseable : ExampleSource
  | singleObject : RawExample → ExampleSource
  | array : List RawExample → ExampleSource
  deriving Repr, DecidableEq

/-- The failures `load_training_examples` can raise before any model call:
`FileNotFoundError` for a missing file, a JSON decode error for an
unparseable one. -/
inductive LoadError where
  | fileNotFound : LoadError
  | jsonDecodeError : LoadError
  deriving Repr, DecidableEq

/-- Function `load_training_examples` from `optimize.py`: raises for a missing or
unparseable source, wraps a single JSON object into a one-element list,
and otherwise returns the parsed examples as given (an empty array is
returned as the empty list without error). -/
def load_training_examples : ExampleSource → Except LoadError (List RawExample)
  | .missing => .error .fileNotFound
  | .unparseable => .error .jsonDecodeError
  | .singleObject e => .ok [e]
  | .array es => .ok es

/-- The demonstration cap `main` in `optimize.py` passes to
`BootstrapFewShot` as `max_bootstrapped_demos`: `min(4, len(trainset))`. -/
def max_bootstrapped_demos (trainset : List RawExample) : Nat :=
  min 4 trainset.length

/-- The `max_labeled_demos` argument `main` in `optimize.py` passes to
`BootstrapFewShot`: the full training-set size. -/
def max_labeled_demos (trainset : List RawExample) : Nat :=
  trainset.length

/-- The phase of `main` in `optimize.py` that runs before
`teleprompter.compile` (and hence before any model invocation): load the
examples, then configure the bootstrap bounds.  Returns the configured
`(max_bootstrapped_demos, max_labeled_demos)` pair, or the load error. -/
def optimize_setup (source : ExampleSource) : Except LoadError (Nat × Nat) :=
  match load_training_examples source with
  | .error e => .error e
  | .ok trainset => .ok (max_bootstrapped_demos trainset, max_labeled_demos trainset)

/-- The prediction value handed to `evaluation_metric` in `optimize.py`:
`None`, a dict, or an attribute-style prediction object; in the latter two
shapes each field may be absent. -/
inductive PredInput where
  | nonePred : PredInput
  | dict : (category title short_summary detailed_summary : Option String) → PredInput
  | attrObj : (category title short_summary detailed_summary : Option String) → PredInput
  deriving Repr, DecidableEq

/-- The field names `_safe_get` is consulted for. -/
inductive Field where
  | category | title | short_summary | detailed_summary
  deriving Repr, DecidableEq

/-- Function `_safe_get` from `optimize.py`: `pred.get(field)` on a dict,
`getattr(pred, field, None)` otherwise — both total, returning `None` for
a missing field and for the `None` prediction. -/
def safe_get (pred : PredInput) (field : Field) : Option String :=
  match pred with
  | .nonePred => none
  | .dict c t s d | .attrObj c t s d =>
    match field with
    | .category => c
    | .title => t
    | .short_summary => s
    | .detailed_summary => d

/-- The gold example fields `evaluation_metric` consults. -/
structure GoldExample where
  category : String
  deriving Repr, DecidableEq

/-- Python truthiness of an optional string (`bool(x)`): `None` and the
empty string are falsy. -/
def truthy : Option String → Bool
  | none => false
  | some s => s ≠ ""

/-- Function `evaluation_metric` from `optimize.py`: true iff the predicted category
equals the gold category (Python `==`, where `None` never equals a string)
and the predicted `detailed_summary` is truthy. -/
def evaluation_metric (gold : GoldExample) (pred : PredInput) : Bool :=
  let category_match :=
    match safe_get pred .category with
    | none => false
    | some c => c = gold.category
  let detailed_ok := truthy (safe_get pred .detailed_summary)
  category_match && detailed_ok

/-- Whether a string is free of leading and trailing whitespace. -/
def noEdgeWS (s : String) : Bool :=
  (match s.data.head? with
   | none => true
   | some c => !pyIsSpace c) &&
  (match s.data.getLast? with
   | none => true
   | some c => !pyIsSpace c)

theorem dropWhile_head?_false (p : Char → Bool) :
    ∀ (l : List Char) (c : Char), (l.dropWhile p).head? = some c → p c = false := by
  intro l
  induction l with
  | nil => intro c h; simp [List.dropWhile] at h
  | cons a rest ih =>
    intro c h
    by_cases hpa : p a
    · rw [List.dropWhile_cons_of_pos hpa] at h
      exact ih c h
    · rw [List.dropWhile_cons_of_neg hpa] at h
      simp at h
      subst h
      exact Bool.eq_false_iff.mpr hpa


theorem dropWhile_getLast?_eq (p : Char → Bool) :
    ∀ l : List Char, l.dropWhile p ≠ [] → (l.dropWhile p).getLast? = l.getLast? := by
  intro l
  induction l with
  | nil => intro h; simp [List.dropWhile] at h
  | cons a rest ih =>
    intro h
    by_cases hpa : p a
    · rw [List.dropWhile_cons_of_pos hpa] at h ⊢
      rw [ih h]
      have hrest : rest ≠ [] := by
        intro hr
        rw [hr] at h
        simp [List.dropWhile] at h
      match rest, hrest with
      | b :: rest', _ => simp [List.getLast?_cons_cons]
    · rw [List.dropWhile_cons_of_neg hpa]

theorem stripChars_head?_false (l : List Char) (c : Char)
    (h : (stripChars l).head? = some c) : pyIsSpace c = false := by
  unfold stripChars at h
  rw [List.head?_reverse] at h
  have hne : (l.dropWhile pyIsSpace).reverse.dropWhile pyIsSpace ≠ [] := by
    intro hnil
    rw [hnil] at h
    simp at h
  rw [dropWhile_getLast?_eq pyIsSpace _ hne, List.getLast?_reverse] at h
  exact dropWhile_head?_false pyIsSpace _ c h

theorem stripChars_getLast?_false (l : List Char) (c : Char)
    (h : (stripChars l).getLast? = some c) : pyIsSpace c = false := by
  unfold stripChars at h
  rw [List.getLast?_reverse] at h
  exact dropWhile_head?_false pyIsSpace _ c h

theorem noEdgeWS_pyStrip (s : String) : noEdgeWS (pyStrip s) = true := by
  unfold noEdgeWS pyStrip
  apply Bool.and_eq_true_iff.mpr
  constructor
  · match hh : (stripChars s.data).head? with
    | none => simp [hh]
    | some c =>
      simp only [hh]
      simp [stripChars_head?_false s.data c hh]
  · match hh : (stripChars s.data).getLast? with
    | none => simp [hh]
    | some c =>
      simp only [hh]
      simp [stripChars_getLast?_false s.data c hh]

theorem containsSub_iff (needle : List Char) :
    ∀ hay : List Char,
      containsSub needle hay = true ↔ ∃ pre post, hay = pre ++ needle ++ post := by
  intro hay
  induction hay with
  | nil =>
    simp only [containsSub, List.isEmpty_iff]
    constructor
    · intro h
      exact ⟨[], [], by simp [h]⟩
    · rintro ⟨pre, post, h⟩
      rcases List.append_eq_nil.mp h.symm with ⟨h1, -⟩
      exact (List.append_eq_nil.mp h1).2
  | cons c rest ih =>
    simp only [containsSub, Bool.or_eq_true, ih, List.isPrefixOf_iff_prefix]
    constructor
    · rintro (⟨t, ht⟩ | ⟨pre, post, h⟩)
      · exact ⟨[], t, by simp [ht]⟩
      · exact ⟨c :: pre, post, by simp [h]⟩
    · rintro ⟨pre, post, h⟩
      match pre with
      | [] =>
        left
        exact ⟨post, by simpa using h.symm⟩
      | p :: pre' =>
        right
        simp only [List.cons_append, List.cons.injEq] at h
        exact ⟨pre', post, h.2⟩

theorem IsSubstr_iff_strContains (needle hay : String) :
    IsSubstr needle hay ↔ strContains hay needle = true := by
  rw [IsSubstr, strContains, containsSub_iff]

theorem normalize_category_some_eq (L : String) :
    normalize_category (some L) =
      if strContains (pyStrip L) "研究前沿" then "研究前沿"
      else if strContains (pyStrip L) "产业应用" then "产业应用"
      else if strContains (pyStrip L) "政策计划" then "政策计划"
      else OTHER := by
  by_cases hL : L = ""
  · subst hL
    decide
  · simp only [normalize_category, if_neg hL, TARGET_CATEGORIES, List.find?]
    cases h1 : strContains (pyStrip L) "研究前沿" <;>
      cases h2 : strContains (pyStrip L) "产业应用" <;>
        cases h3 : strContains (pyStrip L) "政策计划" <;>
          simp [h1, h2, h3]

/-- C2.  Normalization correctness: a missing or empty raw label is forced to
`其他`; otherwise the three target names are scanned in the fixed priority
order 研究前沿, 产业应用, 政策计划 and the first whose exact name occurs as a
substring of the whitespace-stripped label wins; the result is a target
category iff some target name occurs as a substring, and is `其他` when no
target name matches. -/
theorem c2_normalize_category_correct (L : String) :
    normalize_category none = OTHER
    ∧ normalize_category (some "") = OTHER
    ∧ (normalize_category (some L) = "研究前沿" ↔ IsSubstr "研究前沿" (pyStrip L))
    ∧ (normalize_category (some L) = "产业应用" ↔
        ¬ IsSubstr "研究前沿" (pyStrip L) ∧ IsSubstr "产业应用" (pyStrip L))
    ∧ (normalize_category (some L) = "政策计划" ↔
        ¬ IsSubstr "研究前沿" (pyStrip L) ∧ ¬ IsSubstr "产业应用" (pyStrip L)
          ∧ IsSubstr "政策计划" (pyStrip L))
    ∧ (normalize_category (some L) ∈ TARGET_CATEGORIES ↔
        ∃ T ∈ TARGET_CATEGORIES, IsSubstr T (pyStrip L))
    ∧ ((∀ T ∈ TARGET_CATEGORIES, ¬ IsSubstr T (pyStrip L)) →
        normalize_category (some L) = OTHER) := by
  refine ⟨rfl, by decide, ?_, ?_, ?_, ?_, ?_⟩ <;>
    rw [normalize_category_some_eq] <;>
      simp only [IsSubstr_iff_strContains, TARGET_CATEGORIES] <;>
        cases h1 : strContains (pyStrip L) "研究前沿" <;>
          cases h2 : strContains (pyStrip L) "产业应用" <;>
            cases h3 : strContains (pyStrip L) "政策计划" <;>
              simp [h1, h2, h3, OTHER]

theorem forward_pos (classify : String → Option String)
    (extract : String → String → Extraction)
    (content : String) (metadata : MetaInput)
    (h : normalize_category (classify content) ∈ TARGET_CATEGORIES) :
    forward classify extract content metadata =
      (some (assemble_record (normalize_category (classify content))
        (extract content (normalize_category (classify content)))
        (extract_metadata metadata content)), 1) := by
  simp [forward, h]

theorem forward_neg (classify : String → Option String)
    (extract : String → String → Extraction)
    (content : String) (metadata : MetaInput)
    (h : normalize_category (classify content) ∉ TARGET_CATEGORIES) :
    forward classify extract content metadata = (none, 0) := by
  simp [forward, h]

theorem OTHER_not_target : OTHER ∉ TARGET_CATEGORIES := by decide

/-- C1.  Gate invariant: `forward` returns a record iff the normalized
category is one of the three target categories; when the normalized category
is `其他` or otherwise not a target, it returns `none` and the extractor is
invoked zero times, so no record with category `其他` is ever produced. -/
theorem c1_gate_invariant (classify : String → Option String)
    (extract : String → String → Extraction)
    (content : String) (metadata : MetaInput) :
    ((forward classify extract content metadata).1.isSome = true ↔
        normalize_category (classify content) ∈ TARGET_CATEGORIES)
    ∧ (normalize_category (classify content) ∉ TARGET_CATEGORIES →
        forward classify extract content metadata = (none, 0))
    ∧ (∀ rec : Record, (forward classify extract content metadata).1 = some rec →
        rec.category ∈ TARGET_CATEGORIES ∧ rec.category ≠ OTHER) := by
  by_cases h : normalize_category (classify content) ∈ TARGET_CATEGORIES
  · rw [forward_pos classify extract content metadata h]
    refine ⟨by simp [h], fun hn => absurd h hn, ?_⟩
    intro rec hrec
    simp only [Option.some.injEq] at hrec
    subst hrec
    refine ⟨h, fun hEq => ?_⟩
    have hcat : normalize_category (classify content) = OTHER := hEq
    rw [hcat] at h
    exact OTHER_not_target h
  · rw [forward_neg classify extract content metadata h]
    exact ⟨by simp [h], fun _ => rfl, fun rec hrec => by simp at hrec⟩

/-- Closed witness for C1: a classifier answering an out-of-scope label
(`娱乐八卦`) makes `forward` return `none` with zero extractor calls. -/
theorem c1_gate_invariant_witness :
    forward (fun _ => some "娱乐八卦")
      (fun _ _ => ⟨"t", "s", "d"⟩) "内容" MetaInput.noneM = (none, 0) :=
  (c1_gate_invariant (fun _ => some "娱乐八卦")
      (fun _ _ => ⟨"t", "s", "d"⟩) "内容" MetaInput.noneM).2.1 (by decide)

/-- Closed witness for C2: a verbose policy label normalizes to 政策计划,
obtained through the priority characterization. -/
theorem c2_normalize_category_correct_witness :
    normalize_category (some "这是政策计划类新闻") = "政策计划" :=
  ((c2_normalize_category_correct "这是政策计划类新闻").2.2.2.2.1).mpr
    ⟨by rw [IsSubstr_iff_strContains]; decide,
     by rw [IsSubstr_iff_strContains]; decide,
     (IsSubstr_iff_strContains "政策计划" (pyStrip "这是政策计划类新闻")).mpr (by decide)⟩

/-- C6.  Trimming invariant: every record `forward` returns has its title,
short summary and detailed summary free of leading and trailing whitespace,
whatever the extractor's raw output looked like. -/
theorem c6_trimming_invariant (classify : String → Option String)
    (extract : String → String → Extraction)
    (content : String) (metadata : MetaInput) (rec : Record) (calls : Nat)
    (h : forward classify extract content metadata = (some rec, calls)) :
    noEdgeWS rec.title = true ∧ noEdgeWS rec.short_summary = true ∧
      noEdgeWS rec.detailed_summary = true := by
  by_cases hmem : normalize_category (classify content) ∈ TARGET_CATEGORIES
  · rw [forward_pos classify extract content metadata hmem] at h
    simp only [Prod.mk.injEq, Option.some.injEq] at h
    obtain ⟨hrec, -⟩ := h
    subst hrec
    exact ⟨noEdgeWS_pyStrip _, noEdgeWS_pyStrip _, noEdgeWS_pyStrip _⟩
  · rw [forward_neg classify extract content metadata hmem] at h
    simp at h

/-- Closed witness for C6: an extractor emitting padded fields still yields a
record with trimmed title and summaries. -/
theorem c6_trimming_invariant_witness :
    noEdgeWS "标题" = true ∧ noEdgeWS "" = true ∧ noEdgeWS "详情" = true :=
  c6_trimming_invariant (fun _ => some "研究前沿")
    (fun _ _ => ⟨" 标题 ", "  ", "\n详情\t"⟩) "新闻" MetaInput.noneM
    { category := "研究前沿", title := "标题", short_summary := ""
      detailed_summary := "详情", raw_content := "新闻"
      release_time := none, source_institution := none, url := none }
    1 (by decide)

/-- C8.  Metadata fallback: an accepted article processed with no metadata
yields a record whose `raw_content` is the input content and whose other
metadata fields are null; with a `NewsMetadata` present, its fields are
carried through unchanged. -/
theorem c8_metadata_fallback (classify : String → Option String)
    (extract : String → String → Extraction) (content : String)
    (metadata : MetaInput) (rec : Record) (calls : Nat)
    (h : forward classify extract content metadata = (some rec, calls)) :
    (metadata = MetaInput.noneM →
      rec.raw_content = content ∧ rec.release_time = none ∧
        rec.source_institution = none ∧ rec.url = none)
    ∧ (∀ m : NewsMetadata, metadata = MetaInput.meta m →
        rec.raw_content = m.raw_content ∧ rec.release_time = m.release_time ∧
          rec.source_institution = m.source_institution ∧ rec.url = m.url) := by
  by_cases hmem : normalize_category (classify content) ∈ TARGET_CATEGORIES
  · rw [forward_pos classify extract content metadata hmem] at h
    simp only [Prod.mk.injEq, Option.some.injEq] at h
    obtain ⟨hrec, -⟩ := h
    subst hrec
    constructor
    · rintro rfl
      exact ⟨rfl, rfl, rfl, rfl⟩
    · rintro m rfl
      exact ⟨rfl, rfl, rfl, rfl⟩
  · rw [forward_neg classify extract content metadata hmem] at h
    simp at h

/-- Closed witness for C8: with non-null metadata, `source_institution`
appears unchanged in the output record of an accepted policy article. -/
theorem c8_metadata_fallback_witness :
    ("正文" : String) = "正文" ∧ (some "X部委" : Option String) = some "X部委" :=
  let r0 : Record :=
    { category := "政策计划", title := "t", short_summary := "s"
      detailed_summary := "d", raw_content := "正文"
      release_time := none, source_institution := some "X部委", url := none }
  let m : NewsMetadata :=
    { raw_content := "正文", release_time := none
      source_institution := some "X部委", url := none }
  let h := (c8_metadata_fallback (fun _ => some "这是政策计划类新闻")
    (fun _ _ => ⟨"t", "s", "d"⟩) "正文" (MetaInput.meta m) r0 1 (by decide)).2 m rfl
  ⟨h.1, h.2.2.1⟩

/-- C5.  Summary composition: when both the short and the detailed summary
are non-empty, the written record's detailed summary is the short summary,
a newline, then the detailed summary; when either is empty the detailed
summary is kept unchanged, and this is exactly the transformation
`process_records` applies to each accepted prediction before writing it. -/
theorem c5_summary_composition (prediction : Record) :
    (prediction.short_summary ≠ "" → prediction.detailed_summary ≠ "" →
      (compose_summary prediction).detailed_summary =
        prediction.short_summary ++ "\n" ++ prediction.detailed_summary)
    ∧ (prediction.short_summary = "" ∨ prediction.detailed_summary = "" →
      (compose_summary prediction).detailed_summary = prediction.detailed_summary)
    ∧ (∀ (pipeline : String → NewsMetadata → Option Record)
        (record : InputRecord) (rest : List InputRecord),
        pyStrip (mkMetadata record).raw_content ≠ "" →
        pipeline (mkMetadata record).raw_content (mkMetadata record) = some prediction →
        (process_records pipeline (record :: rest)).1 =
          compose_summary prediction :: (process_records pipeline rest).1) := by
  refine ⟨?_, ?_, ?_⟩
  · intro hs hd
    rw [compose_summary, if_pos ⟨hs, hd⟩]
  · intro hor
    rw [compose_summary, if_neg]
    rcases hor with h | h
    · exact fun hc => hc.1 h
    · exact fun hc => hc.2 h
  · intro pipeline record rest hne hp
    simp only [process_records]
    rw [if_neg hne, hp]

/-- Closed witness for C5: an extractor output with empty short summary
keeps the detailed summary unchanged, with no leading newline. -/
theorem c5_summary_composition_witness :
    (compose_summary
      { category := "研究前沿", title := "t", short_summary := ""
        detailed_summary := "(1)要点一(2)要点二", raw_content := "c"
        release_time := none, source_institution := none, url := none
        }).detailed_summary = "(1)要点一(2)要点二" :=
  (c5_summary_composition _).2.1 (Or.inl rfl)

/-- C9.  Empty-content precondition: a row whose `raw_content` strips to the
empty string is skipped entirely by `process_records` — the pipeline is not
invoked for it and it contributes no output line. -/
theorem c9_empty_content_skip (pipeline : String → NewsMetadata → Option Record)
    (record : InputRecord) (rest : List InputRecord)
    (h : pyStrip (mkMetadata record).raw_content = "") :
    process_records pipeline (record :: rest) = process_records pipeline rest := by
  simp only [process_records]
  rw [if_pos h]

/-- Closed witness for C9: a whitespace-only row is dropped with zero
pipeline calls and no output. -/
theorem c9_empty_content_skip_witness :
    process_records (fun _ _ => none) [{ raw_content := some " \t " }] =
      process_records (fun _ _ => none) [] :=
  c9_empty_content_skip (fun _ _ => none) { raw_content := some " \t " } [] (by decide)

/-- Counterexample to C3 as stated: an existing example source that parses
to an empty array loads successfully and the optimizer setup proceeds to
the compile step with zero demonstrations — no configuration error is
raised before model invocation for an empty example set. -/
theorem c3_counterexample :
    load_training_examples (ExampleSource.array []) = Except.ok [] ∧
      optimize_setup (ExampleSource.array []) = Except.ok (0, 0) :=
  ⟨rfl, rfl⟩

/-- C3 (amended).  The optimizer fails before any model invocation when the
backing example source is missing (`FileNotFoundError`) or cannot be parsed
(JSON decode error); an example source parsing to an empty list, however,
is accepted without error and setup proceeds with zero demonstrations. -/
theorem c3_load_failure (source : ExampleSource) :
    (source = ExampleSource.missing →
      optimize_setup source = Except.error LoadError.fileNotFound)
    ∧ (source = ExampleSource.unparseable →
      optimize_setup source = Except.error LoadError.jsonDecodeError)
    ∧ optimize_setup (ExampleSource.array []) = Except.ok (0, 0) := by
  refine ⟨?_, ?_, rfl⟩ <;> rintro rfl <;> rfl

/-- Closed witness for C3 (amended): a missing example file aborts setup
with the file-not-found error. -/
theorem c3_load_failure_witness :
    optimize_setup ExampleSource.missing = Except.error LoadError.fileNotFound :=
  (c3_load_failure ExampleSource.missing).1 rfl

/-- C4.  Optimizer demonstration bound: the bootstrapped-demonstration cap
configured by `main` equals `min(4, N)` for a training set of size `N`, so
it never exceeds 4 nor the number of available examples; with 2 examples
the cap is 2, and loading 2 examples raises no error. -/
theorem c4_optimizer_bound (trainset : List RawExample) :
    max_bootstrapped_demos trainset = min 4 trainset.length
    ∧ max_bootstrapped_demos trainset ≤ 4
    ∧ max_bootstrapped_demos trainset ≤ trainset.length
    ∧ (trainset.length = 2 → max_bootstrapped_demos trainset = 2)
    ∧ (∀ e1 e2 : RawExample,
        optimize_setup (ExampleSource.array [e1, e2]) = Except.ok (2, 2)) := by
  refine ⟨rfl, Nat.min_le_left 4 trainset.length,
    Nat.min_le_right 4 trainset.length, ?_, fun e1 e2 => rfl⟩
  intro h
  rw [max_bootstrapped_demos, h]
  rfl

/-- Closed witness for C4: a two-example training set gets a cap of 2. -/
theorem c4_optimizer_bound_witness :
    max_bootstrapped_demos
      [⟨"c1", "研究前沿", "t1", "s1", "d1"⟩, ⟨"c2", "产业应用", "t2", "s2", "d2"⟩] = 2 :=
  (c4_optimizer_bound
    [⟨"c1", "研究前沿", "t1", "s1", "d1"⟩, ⟨"c2", "产业应用", "t2", "s2", "d2"⟩]).2.2.2.1 rfl

/-- C7.  Evaluation metric definition: the metric is true iff the predicted
category exactly equals the gold category and the predicted detailed
summary is truthy (present and non-empty); the title and short-summary
fields of the prediction have no influence on its value. -/
theorem c7_evaluation_metric (gold : GoldExample) (pred : PredInput) :
    (evaluation_metric gold pred = true ↔
      safe_get pred Field.category = some gold.category ∧
        truthy (safe_get pred Field.detailed_summary) = true)
    ∧ (∀ c d t t' s s' : Option String,
        evaluation_metric gold (PredInput.dict c t s d) =
            evaluation_metric gold (PredInput.dict c t' s' d)
          ∧ evaluation_metric gold (PredInput.attrObj c t s d) =
            evaluation_metric gold (PredInput.attrObj c t' s' d)) := by
  constructor
  · unfold evaluation_metric
    cases hc : safe_get pred Field.category with
    | none => simp [hc]
    | some c =>
      simp only [hc, Bool.and_eq_true, decide_eq_true_eq, Option.some.injEq]
  · intro c d t t' s s'
    exact ⟨rfl, rfl⟩

/-- Closed witness for C7: an exact category match with a non-empty detailed
summary makes the metric true. -/
theorem c7_evaluation_metric_witness :
    evaluation_metric ⟨"研究前沿"⟩
      (PredInput.dict (some "研究前沿") (some "标题") (some "短") (some "详")) = true :=
  ((c7_evaluation_metric ⟨"研究前沿"⟩
      (PredInput.dict (some "研究前沿") (some "标题") (some "短") (some "详"))).1).mpr
    ⟨rfl, by decide⟩

/-- C10.  Metric totality on rejected predictions: the metric yields `false`
rather than failing for the `None` prediction and for dict or
attribute-style predictions that lack the category or detailed-summary
field. -/
theorem c10_metric_total (gold : GoldExample) :
    evaluation_metric gold PredInput.nonePred = false
    ∧ (∀ t s d, evaluation_metric gold (PredInput.dict none t s d) = false)
    ∧ (∀ t s d, evaluation_metric gold (PredInput.attrObj none t s d) = false)
    ∧ (∀ c t s, evaluation_metric gold (PredInput.dict c t s none) = false)
    ∧ (∀ c t s, evaluation_metric gold (PredInput.attrObj c t s none) = false) := by
  refine ⟨rfl, fun t s d => rfl, fun t s d => rfl, ?_, ?_⟩ <;>
    intro c t s <;>
      cases c <;> simp [evaluation_metric, safe_get, truthy]

/-- Closed witness for C10: the `None` prediction evaluates to `false`. -/
theorem c10_metric_total_witness :
    evaluation_metric ⟨"研究前沿"⟩ PredInput.nonePred = false :=
  (c10_metric_total ⟨"研究前沿"⟩).1
